import Mathlib

/-!
Verification of the Speckle session daemon (`.speckle/scripts/session_daemon.py`).

The daemon reconciles live worker sessions with the status of work-items
("beads") stored in an append-only JSONL record file.  We give a shallow
embedding of its core functions:

* `load_issues`   — the Record Store Reader (`load_issues` in the source),
* `get_in_progress_beads` / `get_closed_beads` — the State Classifier,
* `sync_sessions` — the Reconciler,
* `watch_tick` / `watch_ticks` — one iteration of the watch loop's change
  detection (`watch_loop` in the source).

External collaborators are modelled at their interface boundary: a JSONL line
is modelled by the outcome of stripping and JSON-parsing it (`LineContent`);
the Session Registry is modelled by its live id set and the success/failure
behaviour of its `spawn_session` / `terminate_session` operations
(`Registry`); the calls the Reconciler issues to the registry are recorded
explicitly (`RegistryCall`) so that dry-run purity is expressible.
-/

set_option autoImplicit false

namespace Speckle

/-- A work-item record as the daemon reads it from one JSONL line: the
`id`, `status` and `title` fields, each possibly absent or null (`none`). -/
structure Issue where
  id : Option String
  status : Option String
  title : Option String
deriving DecidableEq

/-- The outcome of stripping and JSON-parsing one line of the record file:
blank after stripping, a `json.JSONDecodeError`, valid JSON that is not a
JSON object (e.g. `5`, `"x"`, `[1]`, `null`, `true` — `json.loads`
succeeds but the value has no `.get` method), or a parsed object record. -/
inductive LineContent where
  | blank
  | malformed
  | nonObject
  | record (issue : Issue)
deriving DecidableEq

/-- The outcome of reading the record file: the file is missing, all lines
are read, or an `IOError` interrupts the read after some lines. -/
inductive FileRead where
  | missing
  | ok (lines : List LineContent)
  | ioError (linesBefore : List LineContent)
deriving DecidableEq

/-- Python dict assignment `d[k] = v`: overwrite the entry for `k` in place
if present, else append a new entry. -/
def dictInsert {α : Type} : List (String × α) → String → α → List (String × α)
  | [], k, v => [(k, v)]
  | p :: rest, k, v => if p.1 = k then (k, v) :: rest else p :: dictInsert rest k v

/-- Python dict lookup `d.get(k)`. -/
def dictGet {α : Type} : List (String × α) → String → Option α
  | [], _ => none
  | p :: rest, k => if p.1 = k then some p.2 else dictGet rest k

/-- The body of the per-line loop of `load_issues`: a blank line is skipped,
a `json.JSONDecodeError` is caught (`continue`), a parsed object record is
stored under its id when `issue.get("id")` is truthy (a present,
non-empty string).  On valid JSON that is not an object, `issue.get("id")`
raises `AttributeError`, which no handler in the source catches. -/
def processLine (issues : List (String × Issue)) :
    LineContent → Except String (List (String × Issue))
  | LineContent.blank => Except.ok issues
  | LineContent.malformed => Except.ok issues
  | LineContent.nonObject => Except.error "AttributeError"
  | LineContent.record issue =>
      match issue.id with
      | some issue_id =>
          Except.ok (if issue_id ≠ "" then dictInsert issues issue_id issue else issues)
      | none => Except.ok issues

/-- The per-line loop of `load_issues` over the lines actually read, from a
given accumulated dict; an uncaught exception from a line aborts the rest
of the loop. -/
def loadLinesFrom (issues : List (String × Issue)) :
    List LineContent → Except String (List (String × Issue))
  | [] => Except.ok issues
  | l :: ls =>
      match processLine issues l with
      | Except.ok issues2 => loadLinesFrom issues2 ls
      | Except.error e => Except.error e

/-- The per-line loop of `load_issues`, starting from the empty dict
`issues = {}`. -/
def loadLines (lines : List LineContent) : Except String (List (String × Issue)) :=
  loadLinesFrom [] lines

/-- Embedding of `load_issues`. A missing file yields the empty snapshot.  A
full read yields the processed lines, or the error of the line that raised
an uncaught exception.  An `IOError` interrupting the read is caught by
the `except IOError` handler (which only prints a message), so the records
accumulated before it are returned — unless a line of the prefix already
raised an uncaught exception, which preempts the `IOError` and
propagates. -/
def load_issues : FileRead → Except String (List (String × Issue))
  | FileRead.missing => Except.ok []
  | FileRead.ok lines => loadLines lines
  | FileRead.ioError linesBefore =>
      match loadLines linesBefore with
      | Except.ok issues => Except.ok issues
      | Except.error e => Except.error e

/-- The statuses treated as closed-like by `get_closed_beads`. -/
def closed_statuses : List String :=
  ["closed", "done", "blocked", "blocking", "cancelled", "wontfix"]

/-- Embedding of `get_in_progress_beads`: ids of records whose `status`
field equals `"in_progress"`. -/
def get_in_progress_beads (issues : List (String × Issue)) : List String :=
  (issues.filter (fun p => decide (p.2.status = some "in_progress"))).map Prod.fst

/-- Embedding of `get_closed_beads`: ids of records whose `status` field is
one of the closed-like statuses (a missing or null status is in neither
classification). -/
def get_closed_beads (issues : List (String × Issue)) : List String :=
  (issues.filter (fun p =>
    match p.2.status with
    | some s => decide (s ∈ closed_statuses)
    | none => false)).map Prod.fst

/-- The Session Registry at its interface boundary: the set of bead ids with
a live session (`{s.bead_id for s in session_manager.list_sessions(active_only=True)}`),
and whether `spawn_session` / `terminate_session` succeeds for a given id. -/
structure Registry where
  live : List String
  spawnOk : String → Bool
  termOk : String → Bool

/-- A call issued to the Session Registry during one reconciliation pass. -/
inductive RegistryCall where
  | spawn (bead_id : String)
  | terminate (bead_id : String)
deriving DecidableEq

/-- The result of one reconciliation pass: the `actions` dict returned by
`sync_sessions`, together with the list of registry calls it issued. -/
structure SyncResult where
  actions : List (String × String)
  calls : List RegistryCall
deriving DecidableEq

/-- Module-level constant `AUTO_SPAWN_ENABLED = True`. -/
def AUTO_SPAWN_ENABLED : Bool := true

/-- Module-level constant `AUTO_TERMINATE_ENABLED = True`. -/
def AUTO_TERMINATE_ENABLED : Bool := true

/-- Set difference `need_spawn = in_progress - active_sessions` of
`sync_sessions`, as the in-progress ids outside the live set. -/
def need_spawn (issues : List (String × Issue)) (live : List String) : List String :=
  (get_in_progress_beads issues).filter (fun i => decide (i ∉ live))

/-- Set intersection `need_terminate = active_sessions & closed` of
`sync_sessions`, as the live ids whose bead is closed-like. -/
def need_terminate (issues : List (String × Issue)) (live : List String) : List String :=
  live.filter (fun i => decide (i ∈ get_closed_beads issues))

/-- The body of the spawn loop of `sync_sessions` for one bead id: outside
dry-run it calls `session_manager.spawn_session(bead_id)` and records
`"spawned"` or `"spawn_failed"`; in dry-run it records `"would_spawn"`
without any registry call. -/
def spawnStep (reg : Registry) (dry_run : Bool) (acc : SyncResult) (bead_id : String) :
    SyncResult :=
  if !dry_run then
    { actions := dictInsert acc.actions bead_id
        (if reg.spawnOk bead_id then "spawned" else "spawn_failed"),
      calls := acc.calls ++ [RegistryCall.spawn bead_id] }
  else
    { acc with actions := dictInsert acc.actions bead_id "would_spawn" }

/-- The body of the terminate loop of `sync_sessions` for one bead id:
outside dry-run it calls `session_manager.terminate_session(bead_id)` and
records `"terminated"` or `"terminate_failed"`; in dry-run it records
`"would_terminate"` without any registry call. -/
def termStep (reg : Registry) (dry_run : Bool) (acc : SyncResult) (bead_id : String) :
    SyncResult :=
  if !dry_run then
    { actions := dictInsert acc.actions bead_id
        (if reg.termOk bead_id then "terminated" else "terminate_failed"),
      calls := acc.calls ++ [RegistryCall.terminate bead_id] }
  else
    { acc with actions := dictInsert acc.actions bead_id "would_terminate" }

/-- Embedding of `sync_sessions`, parametrised by the loaded snapshot and the
Session Registry: classify the snapshot, run the spawn loop over
`need_spawn`, then the terminate loop over `need_terminate`, accumulating
the `actions` dict and the registry calls issued. -/
def sync_sessions (issues : List (String × Issue)) (reg : Registry) (dry_run : Bool) :
    SyncResult :=
  let r0 : SyncResult := { actions := [], calls := [] }
  let r1 := if AUTO_SPAWN_ENABLED then
      (need_spawn issues reg.live).foldl (spawnStep reg dry_run) r0
    else r0
  if AUTO_TERMINATE_ENABLED then
    (need_terminate issues reg.live).foldl (termStep reg dry_run) r1
  else r1

/-- One whole reconciliation pass as invoked by the daemon: load the record
file, then sync against the registry.  An uncaught exception from
`load_issues` propagates and aborts the pass before `sync_sessions`
runs. -/
def sync_pass (file : FileRead) (reg : Registry) (dry_run : Bool) :
    Except String SyncResult :=
  (load_issues file).map (fun issues => sync_sessions issues reg dry_run)

/-- What one tick of `watch_loop` observed and did: the value of `last_mtime`
after the tick, whether `sync_sessions` ran, and whether the
"Issues file changed" notice was printed. -/
structure TickResult where
  last_mtime : Nat
  ran_sync : Bool
  printed_changed : Bool
deriving DecidableEq

/-- One iteration of the `while True` body of `watch_loop`, given the current
`last_mtime` and the observation of the record file at this tick (`none`
when `ISSUES_FILE.exists()` is false, `some mtime` otherwise).  When the
file exists and its mtime exceeds `last_mtime`, the changed notice is
printed only past the first run (`last_mtime > 0`), `sync_sessions` runs,
and `last_mtime` is updated; otherwise the tick only sleeps. -/
def watch_tick (last_mtime : Nat) (file_mtime : Option Nat) : TickResult :=
  match file_mtime with
  | none => ⟨last_mtime, false, false⟩
  | some mtime =>
      if mtime > last_mtime then ⟨mtime, true, decide (last_mtime > 0)⟩
      else ⟨last_mtime, false, false⟩

/-- The watch loop run over a finite trace of per-tick file observations,
starting from a given `last_mtime` (the source initialises it to `0`);
returns, per tick, whether a reconciliation ran and whether the changed
notice was printed. -/
def watch_ticks (last_mtime : Nat) : List (Option Nat) → List (Bool × Bool)
  | [] => []
  | obs :: rest =>
      let t := watch_tick last_mtime obs
      (t.ran_sync, t.printed_changed) :: watch_ticks t.last_mtime rest

/-- Modelled from the spec: the record carried by the last line of the file
whose parsed record has a truthy id equal to `k` ("later lines override
earlier ones with the same id").  Used to state last-record-wins against
`loadLines`. -/
def lastRecordFor : List LineContent → String → Option Issue
  | [], _ => none
  | l :: ls, k =>
      match lastRecordFor ls k with
      | some i => some i
      | none =>
          match l with
          | LineContent.record i => if i.id = some k ∧ k ≠ "" then some i else none
          | _ => none

/-- The outcome string the spawn loop records for a bead id, as a function of
the dry-run flag and the registry's spawn behaviour. -/
def spawnOutcome (reg : Registry) (dry_run : Bool) (bead_id : String) : String :=
  if dry_run then "would_spawn"
  else if reg.spawnOk bead_id then "spawned" else "spawn_failed"

/-- The outcome string the terminate loop records for a bead id, as a
function of the dry-run flag and the registry's terminate behaviour. -/
def termOutcome (reg : Registry) (dry_run : Bool) (bead_id : String) : String :=
  if dry_run then "would_terminate"
  else if reg.termOk bead_id then "terminated" else "terminate_failed"

/-! ### Helper lemmas about dicts and the reconciler's loops -/

theorem dictGet_dictInsert {α : Type} (d : List (String × α)) (k q : String) (v : α) :
    dictGet (dictInsert d k v) q = if q = k then some v else dictGet d q := by
  induction d with
  | nil =>
      by_cases h : q = k
      · subst h; simp [dictInsert, dictGet]
      · have hk : ¬ k = q := fun hh => h hh.symm
        simp [dictInsert, dictGet, h, hk]
  | cons p rest ih =>
      simp only [dictInsert]
      by_cases hp : p.1 = k
      · rw [if_pos hp]
        by_cases hq : q = k
        · subst hq; simp [dictGet]
        · have hk : ¬ k = q := fun hh => hq hh.symm
          have hpq : ¬ p.1 = q := by rw [hp]; exact hk
          simp [dictGet, hq, hk, hpq]
      · rw [if_neg hp]
        by_cases hpq : p.1 = q
        · have hq : ¬ q = k := fun hh => hp (by rw [hpq, hh])
          simp [dictGet, hpq, hq]
        · simp [dictGet, hpq, ih]

theorem spawnStep_actions (reg : Registry) (dry_run : Bool) (acc : SyncResult)
    (bead_id : String) :
    (spawnStep reg dry_run acc bead_id).actions =
      dictInsert acc.actions bead_id (spawnOutcome reg dry_run bead_id) := by
  cases dry_run <;> simp [spawnStep, spawnOutcome]

theorem termStep_actions (reg : Registry) (dry_run : Bool) (acc : SyncResult)
    (bead_id : String) :
    (termStep reg dry_run acc bead_id).actions =
      dictInsert acc.actions bead_id (termOutcome reg dry_run bead_id) := by
  cases dry_run <;> simp [termStep, termOutcome]

theorem spawn_foldl_get (reg : Registry) (dry_run : Bool) (l : List String) :
    ∀ (acc : SyncResult) (q : String),
      dictGet (l.foldl (spawnStep reg dry_run) acc).actions q =
        if q ∈ l then some (spawnOutcome reg dry_run q)
        else dictGet acc.actions q := by
  induction l with
  | nil => intro acc q; simp
  | cons a t ih =>
      intro acc q
      rw [List.foldl_cons, ih]
      by_cases hq : q ∈ t
      · simp [hq]
      · by_cases ha : q = a
        · subst ha
          simp [hq, spawnStep_actions, dictGet_dictInsert]
        · simp [hq, ha, spawnStep_actions, dictGet_dictInsert]

theorem term_foldl_get (reg : Registry) (dry_run : Bool) (l : List String) :
    ∀ (acc : SyncResult) (q : String),
      dictGet (l.foldl (termStep reg dry_run) acc).actions q =
        if q ∈ l then some (termOutcome reg dry_run q)
        else dictGet acc.actions q := by
  induction l with
  | nil => intro acc q; simp
  | cons a t ih =>
      intro acc q
      rw [List.foldl_cons, ih]
      by_cases hq : q ∈ t
      · simp [hq]
      · by_cases ha : q = a
        · subst ha
          simp [hq, termStep_actions, dictGet_dictInsert]
        · simp [hq, ha, termStep_actions, dictGet_dictInsert]

theorem spawn_foldl_calls_dry (reg : Registry) (l : List String) :
    ∀ acc : SyncResult, (l.foldl (spawnStep reg true) acc).calls = acc.calls := by
  induction l with
  | nil => intro acc; rfl
  | cons a t ih => intro acc; rw [List.foldl_cons, ih]; rfl

theorem term_foldl_calls_dry (reg : Registry) (l : List String) :
    ∀ acc : SyncResult, (l.foldl (termStep reg true) acc).calls = acc.calls := by
  induction l with
  | nil => intro acc; rfl
  | cons a t ih => intro acc; rw [List.foldl_cons, ih]; rfl

/-- The central description of the actions dict of one pass: an id is mapped
to the terminate outcome if it is in `need_terminate`, else to the spawn
outcome if it is in `need_spawn`, else absent. -/
theorem sync_get (issues : List (String × Issue)) (reg : Registry) (dry_run : Bool)
    (q : String) :
    dictGet (sync_sessions issues reg dry_run).actions q =
      if q ∈ need_terminate issues reg.live then some (termOutcome reg dry_run q)
      else if q ∈ need_spawn issues reg.live then some (spawnOutcome reg dry_run q)
      else none := by
  unfold sync_sessions
  simp only [AUTO_SPAWN_ENABLED, AUTO_TERMINATE_ENABLED, if_true]
  rw [term_foldl_get, spawn_foldl_get]
  rfl

theorem mem_need_spawn (issues : List (String × Issue)) (live : List String) (q : String) :
    q ∈ need_spawn issues live ↔ q ∈ get_in_progress_beads issues ∧ q ∉ live := by
  simp [need_spawn, List.mem_filter]

theorem mem_need_terminate (issues : List (String × Issue)) (live : List String)
    (q : String) :
    q ∈ need_terminate issues live ↔ q ∈ live ∧ q ∈ get_closed_beads issues := by
  simp [need_terminate, List.mem_filter]

/-- When the per-line loop completes, the resulting dict looks up to the
last record with the queried truthy id, falling back to the initial
dict. -/
theorem loadLinesFrom_get (lines : List LineContent) :
    ∀ (d snap : List (String × Issue)) (k : String),
      loadLinesFrom d lines = Except.ok snap →
      dictGet snap k =
        match lastRecordFor lines k with
        | some i => some i
        | none => dictGet d k := by
  induction lines with
  | nil =>
      intro d snap k h
      have hd : d = snap := by simpa [loadLinesFrom] using h
      rw [← hd]
      rfl
  | cons l ls ih =>
      intro d snap k h
      cases hrec : lastRecordFor ls k with
      | some i =>
          simp only [lastRecordFor, hrec]
          cases l with
          | blank => exact (ih d snap k h).trans (by rw [hrec])
          | malformed => exact (ih d snap k h).trans (by rw [hrec])
          | nonObject => simp [loadLinesFrom, processLine] at h
          | record j =>
              cases hid : j.id with
              | none =>
                  have h2 : loadLinesFrom d ls = Except.ok snap := by
                    simpa [loadLinesFrom, processLine, hid] using h
                  exact (ih d snap k h2).trans (by rw [hrec])
              | some s =>
                  have h2 : loadLinesFrom
                      (if s ≠ "" then dictInsert d s j else d) ls = Except.ok snap := by
                    simpa [loadLinesFrom, processLine, hid] using h
                  exact (ih _ snap k h2).trans (by rw [hrec])
      | none =>
          simp only [lastRecordFor, hrec]
          cases l with
          | blank => exact (ih d snap k h).trans (by rw [hrec])
          | malformed => exact (ih d snap k h).trans (by rw [hrec])
          | nonObject => simp [loadLinesFrom, processLine] at h
          | record i =>
              cases hid : i.id with
              | none =>
                  have h2 : loadLinesFrom d ls = Except.ok snap := by
                    simpa [loadLinesFrom, processLine, hid] using h
                  rw [ih d snap k h2, hrec]
                  simp [hid]
              | some j =>
                  have h2 : loadLinesFrom
                      (if j ≠ "" then dictInsert d j i else d) ls = Except.ok snap := by
                    simpa [loadLinesFrom, processLine, hid] using h
                  rw [ih _ snap k h2, hrec]
                  by_cases hj : j = ""
                  · subst hj
                    have hc : ¬ ("" = k ∧ ¬ k = "") := by
                      rintro ⟨h1, h2⟩
                      exact h2 h1.symm
                    simp [hid, hc]
                  · by_cases hkj : k = j
                    · subst hkj
                      simp [hid, hj, dictGet_dictInsert]
                    · have hc : ¬ (j = k ∧ ¬ k = "") := by
                        rintro ⟨h1, _⟩
                        exact hkj h1.symm
                      simp [hid, hj, hkj, hc, dictGet_dictInsert]

/-- The per-line loop over an appended list runs the first list, then, if no
exception aborted it, the second from the accumulated dict. -/
theorem loadLinesFrom_append (l1 l2 : List LineContent) :
    ∀ d : List (String × Issue),
      loadLinesFrom d (l1 ++ l2) =
        match loadLinesFrom d l1 with
        | Except.ok d2 => loadLinesFrom d2 l2
        | Except.error e => Except.error e := by
  induction l1 with
  | nil => intro d; rfl
  | cons l ls ih =>
      intro d
      rw [List.cons_append]
      simp only [loadLinesFrom]
      cases h : processLine d l with
      | ok d2 => simp [ih d2]
      | error e => simp

/-- The per-line loop completes on any list with no valid-JSON-non-object
line (those are the only lines that raise an uncaught exception). -/
theorem loadLinesFrom_clean (lines : List LineContent) :
    LineContent.nonObject ∉ lines →
    ∀ d : List (String × Issue), ∃ d2, loadLinesFrom d lines = Except.ok d2 := by
  induction lines with
  | nil => intro _ d; exact ⟨d, rfl⟩
  | cons l ls ih =>
      intro hclean d
      have hls : LineContent.nonObject ∉ ls := fun h =>
        hclean (List.mem_cons_of_mem l h)
      cases l with
      | nonObject => exact absurd (List.mem_cons_self _ _) hclean
      | blank => exact ih hls d
      | malformed => exact ih hls d
      | record i =>
          cases hid : i.id with
          | none =>
              simp only [loadLinesFrom, processLine, hid]
              exact ih hls d
          | some j =>
              simp only [loadLinesFrom, processLine, hid]
              exact ih hls _

theorem lastRecordFor_mem (lines : List LineContent) (k : String) (i : Issue) :
    lastRecordFor lines k = some i →
      k ≠ "" ∧ LineContent.record i ∈ lines ∧ i.id = some k := by
  induction lines with
  | nil => intro h; exact absurd h (by simp [lastRecordFor])
  | cons l ls ih =>
      intro h
      cases hrec : lastRecordFor ls k with
      | some j =>
          have hj : j = i := by
            simp only [lastRecordFor, hrec] at h
            exact Option.some_inj.mp h
          obtain ⟨hk, hmem, hid⟩ := ih (by rw [hrec, hj])
          exact ⟨hk, List.mem_cons_of_mem l hmem, hid⟩
      | none =>
          cases l with
          | blank => simp [lastRecordFor, hrec] at h
          | malformed => simp [lastRecordFor, hrec] at h
          | nonObject => simp [lastRecordFor, hrec] at h
          | record j =>
              by_cases hc : j.id = some k ∧ k ≠ ""
              · have hji : j = i := by
                  simp only [lastRecordFor, hrec, if_pos hc] at h
                  exact Option.some_inj.mp h
                exact ⟨hc.2, by rw [← hji]; exact List.mem_cons_self _ _, hji ▸ hc.1⟩
              · simp [lastRecordFor, hrec, hc] at h

/-- In a dict with no duplicate keys, two entries under the same key are the
same entry. -/
theorem keys_nodup_unique {α : Type} (l : List (String × α))
    (h : (l.map Prod.fst).Nodup) (k : String) (a b : α)
    (ha : (k, a) ∈ l) (hb : (k, b) ∈ l) : a = b := by
  induction l with
  | nil => cases ha
  | cons p rest ih =>
      rw [List.map_cons, List.nodup_cons] at h
      rcases List.mem_cons.mp ha with ha1 | ha1 <;>
        rcases List.mem_cons.mp hb with hb1 | hb1
      · rw [← ha1] at hb1
        exact (Prod.mk.injEq _ _ _ _ ▸ hb1 : _ ∧ _).2.symm
      · exact absurd (List.mem_map.mpr ⟨(k, b), hb1, by rw [← ha1]⟩) h.1
      · exact absurd (List.mem_map.mpr ⟨(k, a), ha1, by rw [← hb1]⟩) h.1
      · exact ih h.2 ha1 hb1

theorem mem_get_in_progress (issues : List (String × Issue)) (q : String) :
    q ∈ get_in_progress_beads issues ↔
      ∃ i : Issue, (q, i) ∈ issues ∧ i.status = some "in_progress" := by
  constructor
  · intro h
    obtain ⟨p, hp, hq⟩ := List.mem_map.mp h
    obtain ⟨hmem, hst⟩ := List.mem_filter.mp hp
    refine ⟨p.2, ?_, by simpa using hst⟩
    rw [← hq]
    simpa using hmem
  · rintro ⟨i, hmem, hst⟩
    exact List.mem_map.mpr ⟨(q, i), List.mem_filter.mpr ⟨hmem, by simpa using hst⟩, rfl⟩

theorem mem_get_closed (issues : List (String × Issue)) (q : String) :
    q ∈ get_closed_beads issues ↔
      ∃ (i : Issue) (s : String),
        (q, i) ∈ issues ∧ i.status = some s ∧ s ∈ closed_statuses := by
  constructor
  · intro h
    obtain ⟨p, hp, hq⟩ := List.mem_map.mp h
    obtain ⟨hmem, hst⟩ := List.mem_filter.mp hp
    cases hs : p.2.status with
    | none => rw [hs] at hst; simp at hst
    | some s =>
        rw [hs] at hst
        refine ⟨p.2, s, ?_, hs, by simpa using hst⟩
        rw [← hq]
        simpa using hmem
  · rintro ⟨i, s, hmem, hst, hcl⟩
    refine List.mem_map.mpr ⟨(q, i), List.mem_filter.mpr ⟨hmem, ?_⟩, rfl⟩
    simp only [hst]
    simpa using hcl

/-! ### Claim theorems -/

/-- C1: Idempotence of reconciliation. For every snapshot and every
live-session set already consistent with it (every id in the active set has
a live session, and no live session's id is in the inactive set),
`sync_sessions` returns an empty actions dict. -/
theorem reconcile_idempotent (issues : List (String × Issue)) (reg : Registry)
    (dry_run : Bool)
    (hactive : ∀ q ∈ get_in_progress_beads issues, q ∈ reg.live)
    (hinactive : ∀ q ∈ reg.live, q ∉ get_closed_beads issues) :
    (sync_sessions issues reg dry_run).actions = [] := by
  have hs : need_spawn issues reg.live = [] := by
    rw [need_spawn, List.filter_eq_nil_iff]
    intro a ha
    simp [hactive a ha]
  have ht : need_terminate issues reg.live = [] := by
    rw [need_terminate, List.filter_eq_nil_iff]
    intro a ha
    simp [hinactive a ha]
  simp [sync_sessions, AUTO_SPAWN_ENABLED, AUTO_TERMINATE_ENABLED, hs, ht]

theorem reconcile_idempotent_witness :
    (sync_sessions [("W1", ⟨some "W1", some "in_progress", some "t"⟩)]
      ⟨["W1"], fun _ => true, fun _ => true⟩ false).actions = [] :=
  reconcile_idempotent [("W1", ⟨some "W1", some "in_progress", some "t"⟩)]
    ⟨["W1"], fun _ => true, fun _ => true⟩ false (by decide) (by decide)

/-- C2: Reconcile computes exactly the spec's action sets. An id is a key of
the actions dict exactly when it is in `activeSet − liveSessionIds` or in
`liveSessionIds ∩ inactiveSet`; ids of the first set are mapped to a
spawn-type outcome and ids of the second set to a terminate-type outcome. -/
theorem reconcile_action_sets (issues : List (String × Issue)) (reg : Registry)
    (dry_run : Bool) (q : String) :
    ((dictGet (sync_sessions issues reg dry_run).actions q).isSome = true ↔
      ((q ∈ get_in_progress_beads issues ∧ q ∉ reg.live) ∨
        (q ∈ reg.live ∧ q ∈ get_closed_beads issues))) ∧
    ((q ∈ get_in_progress_beads issues ∧ q ∉ reg.live) →
      dictGet (sync_sessions issues reg dry_run).actions q =
          some (spawnOutcome reg dry_run q) ∧
        spawnOutcome reg dry_run q ∈ ["spawned", "spawn_failed", "would_spawn"]) ∧
    ((q ∈ reg.live ∧ q ∈ get_closed_beads issues) →
      dictGet (sync_sessions issues reg dry_run).actions q =
          some (termOutcome reg dry_run q) ∧
        termOutcome reg dry_run q ∈
          ["terminated", "terminate_failed", "would_terminate"]) := by
  have hget := sync_get issues reg dry_run q
  have hsp := mem_need_spawn issues reg.live q
  have htm := mem_need_terminate issues reg.live q
  refine ⟨?_, ?_, ?_⟩
  · rw [hget]
    by_cases h1 : q ∈ need_terminate issues reg.live
    · simp [h1, htm.mp h1]
    · by_cases h2 : q ∈ need_spawn issues reg.live
      · simp [h1, h2, (hsp.mp h2).1, (hsp.mp h2).2]
      · rw [if_neg h1, if_neg h2]
        simp only [Option.isSome_none, Bool.false_eq_true, false_iff]
        rintro (hq | hq)
        · exact h2 (hsp.mpr hq)
        · exact h1 (htm.mpr hq)
  · intro hq
    have h2 : q ∈ need_spawn issues reg.live := hsp.mpr hq
    have h1 : q ∉ need_terminate issues reg.live := fun ht => hq.2 (htm.mp ht).1
    refine ⟨by rw [hget, if_neg h1, if_pos h2], ?_⟩
    cases dry_run with
    | false => by_cases h : reg.spawnOk q = true <;> simp [spawnOutcome, h]
    | true => simp [spawnOutcome]
  · intro hq
    have h1 : q ∈ need_terminate issues reg.live := htm.mpr hq
    refine ⟨by rw [hget, if_pos h1], ?_⟩
    cases dry_run with
    | false => by_cases h : reg.termOk q = true <;> simp [termOutcome, h]
    | true => simp [termOutcome]

theorem reconcile_action_sets_witness :
    dictGet (sync_sessions [("W1", ⟨some "W1", some "in_progress", none⟩)]
        ⟨[], fun _ => true, fun _ => true⟩ false).actions "W1" = some "spawned" := by
  have h := (reconcile_action_sets [("W1", ⟨some "W1", some "in_progress", none⟩)]
      ⟨[], fun _ => true, fun _ => true⟩ false "W1").2.1 ⟨by decide, by decide⟩
  rw [h.1]
  rfl

/-- C3: Action-set disjointness. For a snapshot (a dict, hence without
duplicate ids) and any live set, `need_spawn` and `need_terminate` are
disjoint, and the active and closed classifications are disjoint. -/
theorem reconcile_disjoint (issues : List (String × Issue)) (live : List String)
    (q : String) (hnd : (issues.map Prod.fst).Nodup) :
    ¬ (q ∈ need_spawn issues live ∧ q ∈ need_terminate issues live) ∧
    ¬ (q ∈ get_in_progress_beads issues ∧ q ∈ get_closed_beads issues) := by
  constructor
  · rintro ⟨hs, ht⟩
    exact ((mem_need_spawn issues live q).mp hs).2
      ((mem_need_terminate issues live q).mp ht).1
  · rintro ⟨hi, hc⟩
    obtain ⟨i1, hm1, hst1⟩ := (mem_get_in_progress issues q).mp hi
    obtain ⟨i2, s, hm2, hst2, hcl⟩ := (mem_get_closed issues q).mp hc
    have heq : i1 = i2 := keys_nodup_unique issues hnd q i1 i2 hm1 hm2
    rw [heq, hst2] at hst1
    rw [(Option.some_inj.mp hst1)] at hcl
    exact absurd hcl (by decide)

theorem reconcile_disjoint_witness :
    ¬ ("W1" ∈ need_spawn [("W1", ⟨some "W1", some "in_progress", none⟩)] ["W1"] ∧
        "W1" ∈ need_terminate [("W1", ⟨some "W1", some "in_progress", none⟩)] ["W1"]) ∧
    ¬ ("W1" ∈ get_in_progress_beads [("W1", ⟨some "W1", some "in_progress", none⟩)] ∧
        "W1" ∈ get_closed_beads [("W1", ⟨some "W1", some "in_progress", none⟩)]) :=
  reconcile_disjoint [("W1", ⟨some "W1", some "in_progress", none⟩)] ["W1"] "W1"
    (by decide)

/-- C4: Dry-run purity. With `dry_run = true` the pass issues no registry
call at all, its actions dict has the same key set as the non-dry-run pass,
and the recorded outcomes are `would_spawn` / `would_terminate`. -/
theorem reconcile_dry_run_purity (issues : List (String × Issue)) (reg : Registry) :
    (sync_sessions issues reg true).calls = [] ∧
    (∀ q : String, (dictGet (sync_sessions issues reg true).actions q).isSome =
      (dictGet (sync_sessions issues reg false).actions q).isSome) ∧
    (∀ q ∈ need_spawn issues reg.live,
      dictGet (sync_sessions issues reg true).actions q = some "would_spawn") ∧
    (∀ q ∈ need_terminate issues reg.live,
      dictGet (sync_sessions issues reg true).actions q = some "would_terminate") := by
  refine ⟨?_, ?_, ?_, ?_⟩
  · simp [sync_sessions, AUTO_SPAWN_ENABLED, AUTO_TERMINATE_ENABLED,
      term_foldl_calls_dry, spawn_foldl_calls_dry]
  · intro q
    rw [sync_get, sync_get]
    by_cases h1 : q ∈ need_terminate issues reg.live
    · simp [h1]
    · by_cases h2 : q ∈ need_spawn issues reg.live <;> simp [h1, h2]
  · intro q hq
    have h1 : q ∉ need_terminate issues reg.live := fun ht =>
      ((mem_need_spawn issues reg.live q).mp hq).2
        ((mem_need_terminate issues reg.live q).mp ht).1
    rw [sync_get, if_neg h1, if_pos hq]
    rfl
  · intro q hq
    rw [sync_get, if_pos hq]
    rfl

theorem reconcile_dry_run_purity_witness :
    (sync_sessions [("W1", ⟨some "W1", some "in_progress", none⟩)]
      ⟨[], fun _ => true, fun _ => true⟩ true).calls = [] ∧
    dictGet (sync_sessions [("W1", ⟨some "W1", some "in_progress", none⟩)]
      ⟨[], fun _ => true, fun _ => true⟩ true).actions "W1" = some "would_spawn" :=
  ⟨(reconcile_dry_run_purity [("W1", ⟨some "W1", some "in_progress", none⟩)]
      ⟨[], fun _ => true, fun _ => true⟩).1,
    (reconcile_dry_run_purity [("W1", ⟨some "W1", some "in_progress", none⟩)]
      ⟨[], fun _ => true, fun _ => true⟩).2.2.1 "W1" (by decide)⟩

/-- C5: Partial-failure continuation. When the registry fails the spawn of
one id in the spawn set but succeeds for another, the pass records
`spawn_failed` for the failing id and `spawned` for the succeeding one,
still records an outcome for every id of the spawn set, and records
`terminate_failed` for ids of the terminate set whose termination fails. -/
theorem reconcile_failure_continuation (issues : List (String × Issue)) (reg : Registry)
    (id1 id2 : String)
    (h1 : id1 ∈ need_spawn issues reg.live) (h2 : id2 ∈ need_spawn issues reg.live)
    (hf : reg.spawnOk id1 = false) (hok : reg.spawnOk id2 = true) :
    dictGet (sync_sessions issues reg false).actions id1 = some "spawn_failed" ∧
    dictGet (sync_sessions issues reg false).actions id2 = some "spawned" ∧
    (∀ q ∈ need_spawn issues reg.live,
      (dictGet (sync_sessions issues reg false).actions q).isSome = true) ∧
    (∀ q ∈ need_terminate issues reg.live, reg.termOk q = false →
      dictGet (sync_sessions issues reg false).actions q = some "terminate_failed") := by
  have hdisj : ∀ q ∈ need_spawn issues reg.live,
      q ∉ need_terminate issues reg.live := fun q hq ht =>
    ((mem_need_spawn issues reg.live q).mp hq).2
      ((mem_need_terminate issues reg.live q).mp ht).1
  refine ⟨?_, ?_, ?_, ?_⟩
  · rw [sync_get, if_neg (hdisj id1 h1), if_pos h1]
    simp [spawnOutcome, hf]
  · rw [sync_get, if_neg (hdisj id2 h2), if_pos h2]
    simp [spawnOutcome, hok]
  · intro q hq
    rw [sync_get, if_neg (hdisj q hq), if_pos hq]
    rfl
  · intro q hq hterm
    rw [sync_get, if_pos hq]
    simp [termOutcome, hterm]

theorem reconcile_failure_continuation_witness :
    dictGet (sync_sessions
      [("W1", ⟨some "W1", some "in_progress", none⟩),
       ("W2", ⟨some "W2", some "in_progress", none⟩)]
      ⟨[], fun i => i == "W2", fun _ => true⟩ false).actions "W1" =
        some "spawn_failed" ∧
    dictGet (sync_sessions
      [("W1", ⟨some "W1", some "in_progress", none⟩),
       ("W2", ⟨some "W2", some "in_progress", none⟩)]
      ⟨[], fun i => i == "W2", fun _ => true⟩ false).actions "W2" = some "spawned" := by
  have h := reconcile_failure_continuation
    [("W1", ⟨some "W1", some "in_progress", none⟩),
     ("W2", ⟨some "W2", some "in_progress", none⟩)]
    ⟨[], fun i => i == "W2", fun _ => true⟩ "W1" "W2"
    (by decide) (by decide) (by decide) (by decide)
  exact ⟨h.1, h.2.1⟩

/-- C6 (code bug): on a record file containing a line of valid JSON that is
not a JSON object between two valid records, `load_issues` raises an
uncaught `AttributeError` at `issue.get("id")` and the whole load aborts —
no snapshot is produced, so the other, valid lines are dropped, contrary
to "partial corruption never blocks the rest of the load" (which the
spec states as the deliberate behaviour). -/
theorem loader_crash_on_non_object :
    load_issues (FileRead.ok
      [LineContent.record ⟨some "W1", some "in_progress", none⟩,
       LineContent.nonObject,
       LineContent.record ⟨some "W2", some "in_progress", none⟩]) =
      Except.error "AttributeError" ∧
    ¬ ∃ snap, load_issues (FileRead.ok
      [LineContent.record ⟨some "W1", some "in_progress", none⟩,
       LineContent.nonObject,
       LineContent.record ⟨some "W2", some "in_progress", none⟩]) =
      Except.ok snap := by
  have h1 : load_issues (FileRead.ok
      [LineContent.record ⟨some "W1", some "in_progress", none⟩,
       LineContent.nonObject,
       LineContent.record ⟨some "W2", some "in_progress", none⟩]) =
      Except.error "AttributeError" := rfl
  refine ⟨h1, ?_⟩
  rintro ⟨snap, h⟩
  rw [h1] at h
  exact Except.noConfusion h

/-- C7 (amended): an `IOError` while reading the record file is caught by
`load_issues`, which returns the records accumulated before the error —
the same snapshot as a complete read of those lines — and the
reconciliation pass then proceeds against that partial snapshot instead of
aborting.  The already-read prefix of an I/O-error execution contains no
crash-inducing non-object line (such a line would abort the read before
the `IOError` occurred), stated as the `hclean` hypothesis. -/
theorem loader_io_error_caught (linesBefore : List LineContent) (reg : Registry)
    (dry_run : Bool) (hclean : LineContent.nonObject ∉ linesBefore) :
    load_issues (FileRead.ioError linesBefore) =
      load_issues (FileRead.ok linesBefore) ∧
    (∃ r, sync_pass (FileRead.ioError linesBefore) reg dry_run = Except.ok r) := by
  have heq : load_issues (FileRead.ioError linesBefore) =
      load_issues (FileRead.ok linesBefore) := by
    show (match loadLines linesBefore with
      | Except.ok issues => Except.ok issues
      | Except.error e => Except.error e) = loadLines linesBefore
    cases loadLines linesBefore <;> rfl
  refine ⟨heq, ?_⟩
  obtain ⟨d2, hd2⟩ := loadLinesFrom_clean linesBefore hclean []
  refine ⟨sync_sessions d2 reg dry_run, ?_⟩
  rw [sync_pass, heq]
  show Except.map (fun issues => sync_sessions issues reg dry_run)
    (loadLinesFrom [] linesBefore) = _
  rw [hd2]
  rfl

theorem loader_io_error_caught_witness :
    load_issues (FileRead.ioError
        [LineContent.record ⟨some "W1", some "in_progress", none⟩]) =
      load_issues (FileRead.ok
        [LineContent.record ⟨some "W1", some "in_progress", none⟩]) ∧
    (∃ r, sync_pass (FileRead.ioError
        [LineContent.record ⟨some "W1", some "in_progress", none⟩])
      ⟨[], fun _ => true, fun _ => true⟩ false = Except.ok r) :=
  loader_io_error_caught [LineContent.record ⟨some "W1", some "in_progress", none⟩]
    ⟨[], fun _ => true, fun _ => true⟩ false (by decide)

/-- C7 (counterexample to the claim as stated): on a read interrupted by an
`IOError` after one valid record, `load_issues` does not propagate any
error — it returns the partial snapshot, so the pass does not abort. -/
theorem loader_io_error_counterexample :
    load_issues (FileRead.ioError
        [LineContent.record ⟨some "W1", some "in_progress", none⟩]) =
      Except.ok [("W1", ⟨some "W1", some "in_progress", none⟩)] ∧
    ¬ ∃ e : String, load_issues (FileRead.ioError
        [LineContent.record ⟨some "W1", some "in_progress", none⟩]) =
      Except.error e := by
  have h1 : load_issues (FileRead.ioError
      [LineContent.record ⟨some "W1", some "in_progress", none⟩]) =
      Except.ok [("W1", ⟨some "W1", some "in_progress", none⟩)] := rfl
  refine ⟨h1, ?_⟩
  rintro ⟨e, he⟩
  rw [h1] at he
  exact Except.noConfusion he

/-- C8 (amended): Last-record-wins on every load that completes.  Whenever
the loader returns a snapshot for a file, that snapshot maps an id to
exactly the record of the last line carrying that (truthy) id, and it is
produced from the file contents alone (no merge with prior state). -/
theorem snapshot_last_record_wins (lines : List LineContent) (k : String)
    (snap : List (String × Issue))
    (hload : load_issues (FileRead.ok lines) = Except.ok snap) :
    dictGet snap k = lastRecordFor lines k ∧
    load_issues (FileRead.ok lines) = loadLines lines := by
  refine ⟨?_, rfl⟩
  rw [loadLinesFrom_get lines [] snap k hload]
  cases lastRecordFor lines k <;> rfl

theorem snapshot_last_record_wins_witness :
    dictGet [("W1", (⟨some "W1", some "in_progress", none⟩ : Issue))] "W1" =
      lastRecordFor
        [LineContent.record ⟨some "W1", some "open", none⟩,
         LineContent.record ⟨some "W1", some "in_progress", none⟩] "W1" :=
  (snapshot_last_record_wins
    [LineContent.record ⟨some "W1", some "open", none⟩,
     LineContent.record ⟨some "W1", some "in_progress", none⟩] "W1"
    [("W1", ⟨some "W1", some "in_progress", none⟩)] rfl).1

/-- C8 (counterexample to the claim as stated): a record file with two
parseable lines carrying the id W1, separated by a valid-JSON-non-object
line, produces no snapshot at all — the load aborts with the uncaught
`AttributeError` — so the loader does not map W1 to the last W1 line. -/
theorem last_record_wins_counterexample :
    load_issues (FileRead.ok
      [LineContent.record ⟨some "W1", some "open", none⟩,
       LineContent.nonObject,
       LineContent.record ⟨some "W1", some "in_progress", none⟩]) =
      Except.error "AttributeError" ∧
    ¬ ∃ snap, load_issues (FileRead.ok
      [LineContent.record ⟨some "W1", some "open", none⟩,
       LineContent.nonObject,
       LineContent.record ⟨some "W1", some "in_progress", none⟩]) =
      Except.ok snap := by
  have h1 : load_issues (FileRead.ok
      [LineContent.record ⟨some "W1", some "open", none⟩,
       LineContent.nonObject,
       LineContent.record ⟨some "W1", some "in_progress", none⟩]) =
      Except.error "AttributeError" := rfl
  refine ⟨h1, ?_⟩
  rintro ⟨snap, h⟩
  rw [h1] at h
  exact Except.noConfusion h

/-- C9 (amended): on the first tick at which the record file exists with a
positive modification timestamp, exactly one reconciliation runs and no
"changed" notice is printed; a tick whose observed timestamp does not
exceed the previously recorded one (or at which the file is missing) runs
no reconciliation. -/
theorem watch_baseline (m : Nat) (hm : 0 < m) :
    (∀ rest : List (Option Nat),
      (watch_ticks 0 (some m :: rest)).head? = some (true, false)) ∧
    (∀ last obs : Nat, obs ≤ last →
      watch_tick last (some obs) = ⟨last, false, false⟩) ∧
    (∀ last : Nat, watch_tick last none = ⟨last, false, false⟩) := by
  refine ⟨?_, ?_, fun last => rfl⟩
  · intro rest
    simp [watch_ticks, watch_tick, hm]
  · intro last obs h
    simp [watch_tick, Nat.not_lt.mpr h]

theorem watch_baseline_witness :
    (watch_ticks 0 [some 5, some 5]).head? = some (true, false) ∧
    watch_tick 5 (some 5) = ⟨5, false, false⟩ :=
  ⟨(watch_baseline 5 (by decide)).1 [some 5],
    (watch_baseline 5 (by decide)).2.1 5 5 (by decide)⟩

/-- C9 (counterexample to the claim as stated): when the record file does
not exist at the first tick, `watch_loop` runs no reconciliation at all on
that tick, contradicting "on the very first tick exactly one
reconciliation runs". -/
theorem watch_first_tick_counterexample :
    watch_ticks 0 [(none : Option Nat)] = [(false, false)] ∧
    ¬ (∀ obs : Option Nat, (watch_tick 0 obs).ran_sync = true) := by
  refine ⟨rfl, fun h => ?_⟩
  have h0 := h none
  simp [watch_tick] at h0

/-- C10 (amended): Implicit snapshot-key invariant for object records.  A
line parsing to a JSON object whose `id` field is missing, null or empty
contributes nothing to the load (it is excluded), and whenever the loader
returns a snapshot, every key of that snapshot is a non-empty id appearing
in some object record of the file. -/
theorem snapshot_key_invariant (lines : List LineContent) (k : String) (i : Issue)
    (snap : List (String × Issue))
    (hfalsy : i.id = none ∨ i.id = some "")
    (hload : load_issues (FileRead.ok lines) = Except.ok snap) :
    (∀ pre post : List LineContent,
      load_issues (FileRead.ok (pre ++ LineContent.record i :: post)) =
        load_issues (FileRead.ok (pre ++ post))) ∧
    ((dictGet snap k).isSome = true →
      k ≠ "" ∧ ∃ j : Issue, LineContent.record j ∈ lines ∧ j.id = some k) := by
  constructor
  · intro pre post
    show loadLinesFrom [] (pre ++ LineContent.record i :: post) =
      loadLinesFrom [] (pre ++ post)
    rw [loadLinesFrom_append, loadLinesFrom_append]
    cases h : loadLinesFrom [] pre with
    | error e => rfl
    | ok d2 =>
        rcases hfalsy with hf | hf <;> simp [loadLinesFrom, processLine, hf]
  · intro hsome
    rw [loadLinesFrom_get lines [] snap k hload] at hsome
    cases hrec : lastRecordFor lines k with
    | none => rw [hrec] at hsome; simp [dictGet] at hsome
    | some j =>
        obtain ⟨hk, hmem, hid⟩ := lastRecordFor_mem lines k j hrec
        exact ⟨hk, j, hmem, hid⟩

theorem snapshot_key_invariant_witness :
    load_issues (FileRead.ok
      ([] ++ LineContent.record ⟨none, some "in_progress", none⟩ :: [])) =
      load_issues (FileRead.ok ([] ++ [])) ∧
    ("W1" ≠ "" ∧ ∃ j : Issue,
      LineContent.record j ∈
        [LineContent.record ⟨some "W1", some "in_progress", none⟩] ∧
      j.id = some "W1") := by
  have h := snapshot_key_invariant
    [LineContent.record ⟨some "W1", some "in_progress", none⟩] "W1"
    ⟨none, some "in_progress", none⟩
    [("W1", ⟨some "W1", some "in_progress", none⟩)] (Or.inl rfl) rfl
  exact ⟨h.1 [] [], h.2 (by decide)⟩

/-- C10 (counterexample to the claim as stated): a line of valid non-object
JSON parses successfully and has no `id` field, yet it is not excluded
from the snapshot — it aborts the whole load with an uncaught
`AttributeError`, so no snapshot exists at all. -/
theorem snapshot_key_counterexample :
    load_issues (FileRead.ok [LineContent.nonObject]) =
      Except.error "AttributeError" ∧
    ¬ ∃ snap, load_issues (FileRead.ok [LineContent.nonObject]) =
      Except.ok snap := by
  have h1 : load_issues (FileRead.ok [LineContent.nonObject]) =
      Except.error "AttributeError" := rfl
  refine ⟨h1, ?_⟩
  rintro ⟨snap, h⟩
  rw [h1] at h
  exact Except.noConfusion h

end Speckle
